import Mathlib

/-
  Verification of the taxonomic-abundance core of metaphlan2.py.

  The embedding models, in exact ℚ arithmetic, the code of `TaxClade` and
  `TaxTree` (tree construction context, `compute_abundance`, `add_reads`,
  the tail of `relative_abundances`, and the `rel_ab` output ordering).
  Python floats are idealised as rationals; Python dicts keyed by strings
  are association lists in insertion order (which is the iteration order
  the code relies on); Python's stable `sorted` is `List.insertionSort`
  with the corresponding key relation, which is stable in the same way.
  The dead statement at metaphlan2.py:328-330 (a sorted list that is
  immediately overwritten at line 332) has no semantic effect and is not
  modelled.
-/

set_option maxRecDepth 8000

/-- Prefix test on character lists (model of Python `str.startswith`). -/
def isPrefixCL : List Char → List Char → Bool
  | [], _ => true
  | _ :: _, [] => false
  | a :: as, b :: bs => a == b && isPrefixCL as bs

/-- Substring occurrence on character lists (model of Python `pat in s`). -/
def containsCL (pat : List Char) : List Char → Bool
  | [] => isPrefixCL pat []
  | a :: s => isPrefixCL pat (a :: s) || containsCL pat s

/-- Model of Python `pat in s` for strings. -/
def containsStr (s pat : String) : Bool := containsCL pat.data s.data

/-- Model of Python `s.startswith(pat)`. -/
def startsWithS (s pat : String) : Bool := isPrefixCL pat.data s.data

/-- Python `name[0]` (clade names are nonempty in any valid database;
the default is never taken there). -/
def headCharOf (s : String) : Char := s.data.headD ' '

/-- `TaxClade.get_full_name`: `"|".join(...)` of the ancestor names below
the root followed by the clade's own name. -/
def fullNameOf (anc : List String) (nm : String) : String :=
  String.intercalate "|" (anc ++ [nm])

/-- Number of hierarchy separators in a clade name, Python `x.count("|")`. -/
def countPipes (s : String) : Nat := (s.data.filter (fun c => c == '|')).length

/-- `np.mean` on a rational list (the empty case, `NaN` in numpy, is
unreachable on the paths the code takes; `0` is an arbitrary total value). -/
def meanQ (l : List ℚ) : ℚ := l.sum / (l.length : ℚ)

/-- `np.median`: sort, take the middle element, or the mean of the two
middle elements for even length. -/
def medianQ (l : List ℚ) : ℚ :=
  let s := List.insertionSort (fun a b : ℚ => a ≤ b) l
  let k := s.length
  if k = 0 then 0
  else if k % 2 = 1 then s.getD (k / 2) 0
  else (s.getD (k / 2 - 1) 0 + s.getD (k / 2) 0) / 2

/-- Python slice `l[q:-q]` for `q > 0`, and `l[None:None] = l` for `q = 0`. -/
def midSlice (q : Nat) (l : List α) : List α :=
  if q = 0 then l else (l.drop q).take (l.length - 2 * q)

/-- Python dict write `d[k] = v`: replace in place if the key exists,
otherwise append (insertion order preserved). Marker-count dicts. -/
def dictInsertN (k : String) (v : Nat) (d : List (String × Nat)) : List (String × Nat) :=
  if d.any (fun p => p.1 == k) then d.map (fun p => if p.1 == k then (p.1, v) else p)
  else d ++ [(k, v)]

/-- Python dict write `d[k] = v` for abundance dicts. -/
def dictInsertQ (k : String) (v : ℚ) (d : List (String × ℚ)) : List (String × ℚ) :=
  if d.any (fun p => p.1 == k) then d.map (fun p => if p.1 == k then (p.1, v) else p)
  else d ++ [(k, v)]

/-- Python dict read `d.get(k)`. -/
def lookupN (k : String) (d : List (String × Nat)) : Option Nat :=
  (d.find? (fun p => p.1 == k)).map (fun p => p.2)

/-- The seven values of the `--stat` selector (metaphlan2.py:119). -/
inductive Stat where
  | avg_g | avg_l | tavg_g | tavg_l | wavg_g | wavg_l | med
deriving DecidableEq, Repr

mutual
/-- A `TaxClade` node: name, `markers2nreads` dict, memoised `abundance`
(`None` before computation), `uncl_abundance`, `subcl_uncl`, children
in insertion order. Father pointers of the source are supplied as the
calling context (`Ctx` below) instead of back-references. -/
inductive TClade where
  | node (name : String) (m2n : List (String × Nat)) (ab : Option ℚ)
      (unclAb : ℚ) (subclUncl : Bool) (children : Forest)

/-- The children of a clade, in insertion order. -/
inductive Forest where
  | nil
  | cons (c : TClade) (rest : Forest)
end

def nameF : TClade → String
  | TClade.node nm _ _ _ _ _ => nm

def m2nF : TClade → List (String × Nat)
  | TClade.node _ m _ _ _ _ => m

def abF : TClade → Option ℚ
  | TClade.node _ _ ab _ _ _ => ab

def unclF : TClade → ℚ
  | TClade.node _ _ _ u _ _ => u

def subclF : TClade → Bool
  | TClade.node _ _ _ _ s _ => s

def childrenF : TClade → Forest
  | TClade.node _ _ _ _ _ cs => cs

def isCons : Forest → Bool
  | Forest.nil => false
  | Forest.cons _ _ => true

/-- `len(self.children)`. -/
def lengthF : Forest → Nat
  | Forest.nil => 0
  | Forest.cons _ f => lengthF f + 1

mutual
/-- Size measure used for induction over clades. -/
def sizeT : TClade → Nat
  | TClade.node _ _ _ _ _ cs => 1 + sizeF cs

/-- Size measure used for induction over forests. -/
def sizeF : Forest → Nat
  | Forest.nil => 0
  | Forest.cons c f => 1 + sizeT c + sizeF f
end

mutual
/-- `len(self.get_terminals())`: a leaf counts itself, an inner node
counts the terminal leaves of its subtree (metaphlan2.py:304-310). -/
def nTerm : TClade → Nat
  | TClade.node _ _ _ _ _ Forest.nil => 1
  | TClade.node _ _ _ _ _ (Forest.cons c f) => nTermF (Forest.cons c f)

def nTermF : Forest → Nat
  | Forest.nil => 0
  | Forest.cons c f => nTerm c + nTermF f
end

mutual
/-- The `while len(children) == 1` collapse loop used at
metaphlan2.py:341-343 and 490-491: follow unary chains downward. -/
def collapseT : TClade → TClade
  | TClade.node nm m2n ab u s cs =>
    match collapseF cs with
    | some c => c
    | none => TClade.node nm m2n ab u s cs

def collapseF : Forest → Option TClade
  | Forest.cons c Forest.nil => some (collapseT c)
  | _ => none
end

mutual
/-- Names of the clades skipped while collapsing a unary chain
(the clade itself first); the chain's last clade is `collapseT`. -/
def spineOf : TClade → List String
  | TClade.node nm _ _ _ _ cs =>
    match spineF cs with
    | some tail => nm :: tail
    | none => []

def spineF : Forest → Option (List String)
  | Forest.cons c Forest.nil => some (spineOf c)
  | _ => none
end

mutual
/-- Rewrite every clade's `markers2nreads` dict by `f` (given the clade's
name), leaving all computed fields intact: models arbitrary mutation of
read counts between two `compute_abundance` calls. -/
def mapMarkersT (f : String → List (String × Nat) → List (String × Nat)) : TClade → TClade
  | TClade.node nm m2n ab u s cs => TClade.node nm (f nm m2n) ab u s (mapMarkersF f cs)

def mapMarkersF (f : String → List (String × Nat) → List (String × Nat)) : Forest → Forest
  | Forest.nil => Forest.nil
  | Forest.cons c g => Forest.cons (mapMarkersT f c) (mapMarkersF f g)
end

/-- The global data `compute_abundance` reads: the class-level lookup
tables installed by `TaxTree.__init__` / `set_stat` / `set_min_cu_len`.
`taxa2clades` returns the clade object a bare taxon id maps to (`none`
models an id absent from the index, a construction-time fatal error). -/
structure Env where
  markers2lens : String → ℚ
  markers2exts : String → List String
  taxa2clades : String → Option TClade
  stat : Stat
  quantile : ℚ
  min_cu_len : ℚ
  avoid_disqm : Bool

/-- The father-side context of a clade: ancestor names below the root
(for `get_full_name`), the father's name and its number of children. -/
structure Ctx where
  ancNames : List String
  fatherName : String
  fatherNChildren : Nat

/-- The quasi-marker test of metaphlan2.py:336-350: a marker is
misidentified when some clade of its extended set, collapsed down any
unary chain, has a nonempty marker dict whose fraction of nonzero
counts exceeds 0.33. An unresolvable taxon id yields `false` here
(the source would raise instead; theorems assume resolvability). -/
def misidentified (env : Env) (m : String) : Bool :=
  (env.markers2exts m).any (fun e =>
    match env.taxa2clades e with
    | none => false
    | some toclade =>
      let m2nr := m2nF (collapseT toclade)
      decide (0 < m2nr.length) &&
        decide ((0.33 : ℚ) <
          ((m2nr.filter (fun p => decide (0 < p.2))).length : ℚ) / (m2nr.length : ℚ)))

/-- The filtering loop of metaphlan2.py:332-352: each marker of the clade
becomes a `(length, count)` pair in the active list `rat_nreads`, or in
`removed` when disambiguation is on and the marker is misidentified. -/
def disqmFilter (env : Env) : List (String × Nat) → List (ℚ × Nat) × List (ℚ × Nat)
  | [] => ([], [])
  | (m, n) :: rest =>
    let r := disqmFilter env rest
    if (!env.avoid_disqm) && misidentified env m then
      (r.1, (env.markers2lens m, n) :: r.2)
    else ((env.markers2lens m, n) :: r.1, r.2)

/-- `n_ripr` of metaphlan2.py:358-364: 10, forced to 0 for clades with
fewer than two terminal leaves or under the viral kingdom. -/
def nRiprOf (fullNm : String) (terminals : Nat) : Nat :=
  if containsStr fullNm "k__Viruses" then 0
  else if terminals < 2 then 0 else 10

/-- The restoration step of metaphlan2.py:354-367: when disambiguation is
on and markers were removed, refill the active list from the head of
`removed` up to `n_ripr` entries in total. -/
def restoreStage (avoid : Bool) (nRipr : Nat) (act rem : List (ℚ × Nat)) : List (ℚ × Nat) :=
  if (!avoid) && decide (0 < rem.length) then
    if decide (act.length < nRipr) && decide (act.length < act.length + rem.length) then
      act ++ rem.take (nRipr - act.length)
    else act
  else act

/-- `sorted(rat_nreads, key = lambda x: x[1])` (metaphlan2.py:370):
stable ascending sort by read count. -/
def sortByCount (l : List (ℚ × Nat)) : List (ℚ × Nat) :=
  List.insertionSort (fun a b => a.2 ≤ b.2) l

/-- `int(self.quantile * len(rat_nreads))` (metaphlan2.py:374): Python
`int()` truncates toward zero, which `Int.tdiv` on the reduced fraction
reproduces exactly. -/
def quantOf (q : ℚ) (n : Nat) : Nat :=
  ((q * (n : ℚ)).num.tdiv ((q * (n : ℚ)).den : ℤ)).toNat

/-- The active marker list `rat_nreads` a clade feeds to the estimators:
disambiguation filter, restoration, then the stable sort by count. -/
def activeOf (env : Env) (m2n : List (String × Nat)) (fullNm : String)
    (terminals : Nat) : List (ℚ × Nat) :=
  let fr := disqmFilter env m2n
  sortByCount (restoreStage env.avoid_disqm (nRiprOf fullNm terminals) fr.1 fr.2)

/-- The statistic dispatch of metaphlan2.py:372-406 computing `loc_ab`
from the sorted active `(length, count)` list. Mirrors the `elif` chain:
`rat` is the total length or `-1` when that total is zero, and the
trimmed modes with a zero trim width fall into the plain-average arms. -/
def locAbOf (stat : Stat) (q : ℚ) (rs : List (ℚ × Nat)) : ℚ :=
  let ratV := rs.map (fun p => p.1)
  let nreadsV := rs.map (fun p => p.2)
  let rat : ℚ := if ratV.sum = 0 then -1 else ratV.sum
  let nrawreads : ℚ := (nreadsV.sum : ℚ)
  let quant := quantOf q rs.length
  let ratios := rs.map (fun p => (p.2 : ℚ) / p.1)
  if rat < 0 then 0
  else if stat = Stat.avg_g ∨ (quant = 0 ∧ (stat = Stat.wavg_g ∨ stat = Stat.tavg_g)) then
    if 0 ≤ rat then nrawreads / rat else 0
  else if stat = Stat.avg_l ∨ (quant = 0 ∧ (stat = Stat.wavg_l ∨ stat = Stat.tavg_l)) then
    meanQ ratios
  else if stat = Stat.tavg_g then
    let wn := List.insertionSort (fun a b : ℚ × ℚ × Nat => a.1 ≤ b.1)
      (rs.map (fun p => ((p.2 : ℚ) / p.1, p.1, p.2)))
    let mid := midSlice quant wn
    let den := (mid.map (fun v => v.2.1)).sum
    let num : ℚ := ((mid.map (fun v => v.2.2)).sum : ℚ)
    if (mid.map (fun v => v.2.1)).any (fun d => d != 0) then num / den else 0
  else if stat = Stat.tavg_l then
    meanQ (midSlice quant (List.insertionSort (fun a b : ℚ => a ≤ b) ratios))
  else if stat = Stat.wavg_g then
    let vmin := nreadsV.getD quant 0
    let vmax := nreadsV.getD (nreadsV.length - quant) 0
    ((List.replicate quant vmin ++ midSlice quant nreadsV ++ List.replicate quant vmax).sum : ℚ) / rat
  else if stat = Stat.wavg_l then
    let ws := List.insertionSort (fun a b : ℚ => a ≤ b) ratios
    let vmin := ws.getD quant 0
    let vmax := ws.getD (ws.length - quant) 0
    meanQ (List.replicate quant vmin ++ midSlice quant ws ++ List.replicate quant vmax)
  else if stat = Stat.med then
    medianQ (midSlice quant (List.insertionSort (fun a b : ℚ => a ≤ b) ratios))
  else 0

/-- The guard of the strain-level zero-out (metaphlan2.py:377): a
`t`-ranked clade whose father has several children, or whose father's
name contains `_sp`, or whose lineage is under the viral kingdom. -/
def strainSpecial (nm : String) (ctx : Ctx) (fullNm : String) : Bool :=
  (headCharOf nm == 't') &&
    (decide (1 < ctx.fatherNChildren) || containsStr ctx.fatherName "_sp" ||
      containsStr fullNm "k__Viruses")

/-- The low-signal test of metaphlan2.py:378-380: no active marker, or
fewer than 70% of the active markers with a nonzero count. -/
def lowActive (rs : List (ℚ × Nat)) : Bool :=
  decide (rs.length = 0) ||
    decide (((rs.filter (fun p => decide (0 < p.2))).length : ℚ) / (rs.length : ℚ) < (0.7 : ℚ))

mutual
/-- `TaxClade.compute_abundance` (metaphlan2.py:325-418) on a clade,
returning the abundance together with the clade as mutated by the call
(memoised abundance, `uncl_abundance`, `subcl_uncl`, updated children). -/
def compute_abundance (env : Env) (ctx : Ctx) : TClade → ℚ × TClade
  | TClade.node nm m2n ab unclA subclU cs =>
    match ab with
    | some a => (a, TClade.node nm m2n ab unclA subclU cs)
    | none =>
      let fullNm := fullNameOf ctx.ancNames nm
      let cctx : Ctx := ⟨ctx.ancNames ++ [nm], nm, lengthF cs⟩
      let r := compute_forest env cctx cs
      let ratNreads := activeOf env m2n fullNm
        (nTerm (TClade.node nm m2n none unclA subclU cs))
      if strainSpecial nm ctx fullNm && lowActive ratNreads then
        (0, TClade.node nm m2n (some 0) unclA subclU r.2)
      else
        let ratSum : ℚ := (ratNreads.map (fun p => p.1)).sum
        let rat : ℚ := if ratSum = 0 then -1 else ratSum
        let sum_ab := r.1
        let loc_ab := locAbOf env.stat env.quantile ratNreads
        let ab2 : ℚ :=
          if rat < env.min_cu_len ∧ isCons cs = true then sum_ab
          else if loc_ab < sum_ab then sum_ab else loc_ab
        let unclA2 := if sum_ab < ab2 ∧ isCons cs = true then ab2 - sum_ab else unclA
        let subclU2 := (!isCons cs) && !(headCharOf nm == 's' || headCharOf nm == 't')
        (ab2, TClade.node nm m2n (some ab2) unclA2 subclU2 r.2)

/-- The recursive pass over children (metaphlan2.py:327): computes each
child in order and sums the returned abundances. -/
def compute_forest (env : Env) (ctx : Ctx) : Forest → ℚ × Forest
  | Forest.nil => (0, Forest.nil)
  | Forest.cons c f =>
    let rc := compute_abundance env ctx c
    let rf := compute_forest env ctx f
    (rc.1 + rf.1, Forest.cons rc.2 rf.2)
end

mutual
/-- Every clade of the tree still has an uncomputed (`None`) abundance:
the state of a freshly built tree. -/
def freshT : TClade → Bool
  | TClade.node _ _ ab _ _ cs => ab.isNone && freshF cs

def freshF : Forest → Bool
  | Forest.nil => true
  | Forest.cons c f => freshT c && freshF f
end

mutual
/-- Every `t`-ranked clade of the tree is a leaf: the shape of any tree
built from a valid marker database, whose lineages end at rank `t`. -/
def tleafT : TClade → Bool
  | TClade.node nm _ _ _ _ cs => (!(headCharOf nm == 't') || !isCons cs) && tleafF cs

def tleafF : Forest → Bool
  | Forest.nil => true
  | Forest.cons c f => tleafT c && tleafF f
end

/-- The computed abundance of a clade (0 when still uncomputed). -/
def abD : TClade → ℚ
  | TClade.node _ _ ab _ _ _ => ab.getD 0

/-- Sum of the computed abundances of a forest's clades. -/
def sumAbF : Forest → ℚ
  | Forest.nil => 0
  | Forest.cons c f => abD c + sumAbF f

mutual
/-- Monotonicity invariant: every clade's abundance is computed and is at
least the sum of its children's computed abundances. -/
def monoT : TClade → Bool
  | TClade.node _ _ ab _ _ cs =>
    (match ab with
     | none => false
     | some a => decide (sumAbF cs ≤ a)) && monoF cs

def monoF : Forest → Bool
  | Forest.nil => true
  | Forest.cons c f => monoT c && monoF f
end

/-- The kingdom-exclusion flags of `TaxTree.add_reads`
(metaphlan2.py:475-477). -/
structure Flags where
  iv : Bool
  ie : Bool
  ib : Bool
  ia : Bool

mutual
/-- The collapse-and-record walk of metaphlan2.py:490-493: descend unary
chains from the owning clade, overwrite the reached clade's count for
the marker, and return that clade's full pipe-delimited name. -/
def addCollapseC (marker : String) (n : Nat) (anc : List String) : TClade → String × TClade
  | TClade.node nm m2n ab u s cs =>
    match addCollapseF marker n (anc ++ [nm]) cs with
    | some rf => (rf.1, TClade.node nm m2n ab u s rf.2)
    | none => (fullNameOf anc nm, TClade.node nm (dictInsertN marker n m2n) ab u s cs)

def addCollapseF (marker : String) (n : Nat) (anc : List String) :
    Forest → Option (String × Forest)
  | Forest.cons c Forest.nil =>
    let rc := addCollapseC marker n anc c
    some (rc.1, Forest.cons rc.2 Forest.nil)
  | _ => none
end

/-- `TaxTree.add_reads` (metaphlan2.py:475-493) on the marker's owning
clade, given that clade's ancestor names: kingdom-exclusion checks on
the owning clade's full name, then the collapse-and-record walk. An
empty string models Python's `return ""` (no tax-sequence). -/
def add_reads (marker : String) (n : Nat) (fl : Flags) (anc : List String)
    (cl : TClade) : String × TClade :=
  let cn := fullNameOf anc (nameF cl)
  if fl.iv || fl.ie || fl.ib || fl.ia then
    if fl.iv && startsWithS cn "k__Viruses" then ("", cl)
    else if fl.ie && startsWithS cn "k__Eukaryotes" then ("", cl)
    else if fl.ia && startsWithS cn "k__Archaea" then ("", cl)
    else if fl.ib && startsWithS cn "k__Bacteria" then ("", cl)
    else addCollapseC marker n anc cl
  else addCollapseC marker n anc cl

/-- The guard combination under which `add_reads` drops the read. -/
def excludedB (fl : Flags) (cn : String) : Bool :=
  (fl.iv || fl.ie || fl.ib || fl.ia) &&
    ((fl.iv && startsWithS cn "k__Viruses") || (fl.ie && startsWithS cn "k__Eukaryotes") ||
      (fl.ia && startsWithS cn "k__Archaea") || (fl.ib && startsWithS cn "k__Bacteria"))

/-- Sum of the values of an abundance dict. -/
def sumVals (d : List (String × ℚ)) : ℚ := (d.map (fun p => p.2)).sum

/-- Keys of an abundance dict. -/
def keysOf (d : List (String × ℚ)) : List String := d.map (fun p => p.1)

/-- The rank-filtered tail of `TaxTree.relative_abundances`
(metaphlan2.py:526-545) given the collected `(name, abundance)` pairs of
the full-tree walk and the normalisation denominator: keep the entries
matching the rank, normalise each by `tot_ab` (0 when it is 0), then add
the synthesized `<rank>unclassified` entry `1 - sum(ret_d.values())`. -/
def relative_abundances_filtered (entries : List (String × ℚ)) (totAb : ℚ)
    (lev : String) : List (String × ℚ) :=
  let cl2ab := entries.foldl
    (fun d p => if startsWithS p.1 lev then dictInsertQ p.1 p.2 d else d) []
  let retD := cl2ab.map (fun p => (p.1, if totAb = 0 then 0 else p.2 / totAb))
  dictInsertQ (lev ++ "unclassified") (1 - sumVals retD) retD

/-- The sort key of the `rel_ab` output (metaphlan2.py:733):
`x[1] + 100.0 * (8 - x[0].count("|"))`. -/
def sortKeyRA (p : String × ℚ) : ℚ := p.2 + 100 * (8 - (countPipes p.1 : ℚ))

/-- The `rel_ab` output ordering (metaphlan2.py:732-734): Python's stable
`sorted(..., reverse=True, key=sortKeyRA)`, i.e. a stable sort into
non-increasing key order. -/
def relAbSort (l : List (String × ℚ)) : List (String × ℚ) :=
  List.insertionSort (fun a b => sortKeyRA b ≤ sortKeyRA a) l

/-- The ordering claimed for the output table: non-increasing abundance,
with ties broken shallower-first by separator count. -/
def claimOrderC9 (l : List (String × ℚ)) : Prop :=
  List.Chain' (fun x y => y.2 < x.2 ∨ (x.2 = y.2 ∧ countPipes x.1 ≤ countPipes y.1)) l

/-- A species-level leaf with three markers of length 100 and counts
1, 2, 9: its trim width at quantile 2/5 is 1, so `tavg_g` and `avg_g`
genuinely differ on it (2/100 versus 12/300). -/
def leafC10 : TClade := TClade.node "s__C" [("m1",1),("m2",2),("m3",9)] none 0 false Forest.nil

/-- A genus clade with no markers of its own above `leafC10`: its own
active list is empty, so its trim width is 0, and its abundance is the
child's (the `rat < min_cu_len` clamp at metaphlan2.py:409-410). -/
def parC10 : TClade := TClade.node "g__P" [] none 0 false (Forest.cons leafC10 Forest.nil)

/-- Configuration with mode `avg_g`, quantile 2/5, `min_cu_len` 0. -/
def envC10A : Env where
  markers2lens := fun _ => 100
  markers2exts := fun _ => []
  taxa2clades := fun _ => none
  stat := Stat.avg_g
  quantile := 2/5
  min_cu_len := 0
  avoid_disqm := true

/-- The same configuration with mode `tavg_g`. -/
def envC10T : Env where
  markers2lens := fun _ => 100
  markers2exts := fun _ => []
  taxa2clades := fun _ => none
  stat := Stat.tavg_g
  quantile := 2/5
  min_cu_len := 0
  avoid_disqm := true

/-- The context of a kingdom-level call (father is the root). -/
def ctxRoot : Ctx := ⟨[], "root", 1⟩

/-- A strain (`t`-ranked) leaf with one nonzero marker out of two. -/
def cladeW5 : TClade := TClade.node "t__S" [("mA",0),("mB",5)] none 0 false Forest.nil

/-- A context whose father `s__Y` has two children. -/
def ctxW5 : Ctx := ⟨["k__B","p__P","c__C","o__O","f__F","g__G","s__Y"], "s__Y", 2⟩

/-- Configuration used by the claim C5 witness: mode `med`, markers of
length 100, no extended clades. -/
def envW5 : Env where
  markers2lens := fun _ => 100
  markers2exts := fun _ => []
  taxa2clades := fun _ => none
  stat := Stat.med
  quantile := 1/10
  min_cu_len := 2000
  avoid_disqm := false

/-- An extended clade holding one marker with a nonzero count: every
marker related to it through the extended set is misidentified. -/
def extC3 : TClade := TClade.node "s__E" [("em",3)] none 0 false Forest.nil

/-- Configuration for the claim C3 witness: marker `mX` has the extended
taxon `E`, which resolves to `extC3`; marker `mY` has no extended set. -/
def envC3 : Env where
  markers2lens := fun _ => 100
  markers2exts := fun m => if m == "mX" then ["E"] else []
  taxa2clades := fun e => if e == "E" then some extC3 else none
  stat := Stat.avg_g
  quantile := 1/10
  min_cu_len := 2000
  avoid_disqm := false

/-- An extended clade for the C4 instance, one marker with count 3. -/
def extC4 : TClade := TClade.node "s__E4" [("em",3)] none 0 false Forest.nil

/-- Configuration for the C4 instance: markers `r1` and `r2` carry the
extended taxon `E` (fully nonzero, so both are removed); the nine
markers `a1`..`a9` have no extended set and stay active. -/
def envC4 : Env where
  markers2lens := fun _ => 100
  markers2exts := fun m => if m == "r1" || m == "r2" then ["E"] else []
  taxa2clades := fun e => if e == "E" then some extC4 else none
  stat := Stat.avg_g
  quantile := 1/10
  min_cu_len := 0
  avoid_disqm := false

/-- A marker dict whose removed markers appear in the order `r1` (count
5) then `r2` (count 1): dict order disagrees with count order. -/
def m2nC4 : List (String × Nat) :=
  [("a1",1),("a2",1),("a3",1),("a4",1),("a5",1),("a6",1),("a7",1),("a8",1),("a9",1),
   ("r1",5),("r2",1)]

/-- A species clade holding `m2nC4` with two terminal strain leaves
(so `n_ripr = 10`). -/
def cladeC4 : TClade := TClade.node "s__X" m2nC4 none 0 false
  (Forest.cons (TClade.node "t__u" [] none 0 false Forest.nil)
    (Forest.cons (TClade.node "t__v" [] none 0 false Forest.nil) Forest.nil))

/-- A genus clade whose unary chain runs genus → species → strain; the
strain leaf holds marker `mZ` with the initial count 0. -/
def cladeW7 : TClade :=
  TClade.node "g__G1" [] none 0 false
    (Forest.cons
      (TClade.node "s__S1" [] none 0 false
        (Forest.cons
          (TClade.node "t__T1" [("mZ",0)] none 0 false Forest.nil) Forest.nil))
      Forest.nil)

/-- A fresh two-level kingdom tree: the kingdom holds one marker, its
two phyla hold one marker each (one of them with count 0). -/
def treeW1 : TClade :=
  TClade.node "k__B" [("kb1", 2)] none 0 false
    (Forest.cons (TClade.node "p__P1" [("p1", 3)] none 0 false Forest.nil)
      (Forest.cons (TClade.node "p__P2" [("p2", 0)] none 0 false Forest.nil) Forest.nil))

/-- Configuration for the claim C1 witness: mode `tavg_l`, disambiguation
enabled. -/
def envW1 : Env where
  markers2lens := fun _ => 100
  markers2exts := fun _ => []
  taxa2clades := fun _ => none
  stat := Stat.tavg_l
  quantile := 1/5
  min_cu_len := 50
  avoid_disqm := false

/-! ### Basic behaviour of `compute_abundance` -/

/-- Whatever path `compute_abundance` takes, the abundance it stores on
the clade is the value it returns (metaphlan2.py:326, 381-382, 408-418). -/
theorem abF_compute (env : Env) (ctx : Ctx) (c : TClade) :
    abF (compute_abundance env ctx c).2 = some (compute_abundance env ctx c).1 := by
  cases c with
  | node nm m2n ab unclA subclU cs =>
    cases ab with
    | some a => simp [compute_abundance, abF]
    | none =>
      simp only [compute_abundance]
      split
      · simp [abF]
      · simp [abF]

/-- The memoisation guard (metaphlan2.py:326): a clade whose abundance is
already computed is returned unchanged, with the cached value. -/
theorem compute_memo (env : Env) (ctx : Ctx) (c : TClade) (a : ℚ)
    (h : abF c = some a) : compute_abundance env ctx c = (a, c) := by
  cases c with
  | node nm m2n ab unclA subclU cs =>
    simp only [abF] at h
    subst h
    simp [compute_abundance]

/-- Rewriting read counts touches no computed abundance field. -/
theorem abF_mapMarkersT (f : String → List (String × Nat) → List (String × Nat))
    (c : TClade) : abF (mapMarkersT f c) = abF c := by
  cases c with
  | node nm m2n ab unclA subclU cs => simp [mapMarkersT, abF]

/-! ### Claim C2: memoisation of `compute_abundance` -/

/-- Claim C2: for every clade, a second `compute_abundance` call on the
result of the first returns exactly the first value and leaves the tree
untouched (so the recursive computation runs at most once per clade per
tree instance), and this second value is unchanged even if every clade's
`markers2nreads` dict is mutated arbitrarily between the calls, or the
global configuration is replaced. -/
theorem claim_C2 (env env2 : Env) (ctx ctx2 : Ctx) (c : TClade)
    (f : String → List (String × Nat) → List (String × Nat)) :
    compute_abundance env2 ctx2 (compute_abundance env ctx c).2
        = ((compute_abundance env ctx c).1, (compute_abundance env ctx c).2) ∧
    (compute_abundance env2 ctx2 (mapMarkersT f (compute_abundance env ctx c).2)).1
        = (compute_abundance env ctx c).1 := by
  constructor
  · exact compute_memo env2 ctx2 _ _ (abF_compute env ctx c)
  · have h : abF (mapMarkersT f (compute_abundance env ctx c).2)
        = some (compute_abundance env ctx c).1 := by
      rw [abF_mapMarkersT, abF_compute]
    rw [compute_memo env2 ctx2 _ _ h]

/-! ### Claim C6: the `avg_g` estimator -/

/-- Claim C6: in mode `avg_g`, on a nonempty active list with positive
total length, the local estimate is total reads over total length. -/
theorem claim_C6 (q : ℚ) (l : List (ℚ × Nat)) (h0 : l ≠ [])
    (h1 : 0 < (l.map (fun p => p.1)).sum) :
    locAbOf Stat.avg_g q l
      = ((l.map (fun p => p.2)).sum : ℚ) / (l.map (fun p => p.1)).sum := by
  simp only [locAbOf]
  rw [if_neg h1.ne', if_neg (by simp [not_lt, h1.le])]
  simp [h1.le]
  congr 1

/-- Instance of claim C6 at the spec's own example: four markers of
length 100 with counts 0, 2, 4, 10 give the estimate 16/400 = 0.04. -/
theorem claim_C6_witness :
    locAbOf Stat.avg_g (1/10) [(100,0),(100,2),(100,4),(100,10)] = (0.04 : ℚ) := by
  rw [claim_C6 (1/10) [(100,0),(100,2),(100,4),(100,10)] (by decide)
    (by with_unfolding_all decide)]
  with_unfolding_all decide

/-! ### Claim C10: trimmed/winsorized modes with zero trim width -/

/-- Claim C10 (amended): when the trim width `int(quantile * len)` of an
active marker list is 0, the local estimate in `tavg_g` and `wavg_g`
equals the `avg_g` estimate and the one in `tavg_l` and `wavg_l` equals
the `avg_l` estimate (metaphlan2.py:386-389): the guards
`not qn and self.stat in [...]` reroute those modes into the plain
average arms. -/
theorem claim_C10 (q : ℚ) (l : List (ℚ × Nat)) (h : quantOf q l.length = 0) :
    locAbOf Stat.tavg_g q l = locAbOf Stat.avg_g q l ∧
    locAbOf Stat.wavg_g q l = locAbOf Stat.avg_g q l ∧
    locAbOf Stat.tavg_l q l = locAbOf Stat.avg_l q l ∧
    locAbOf Stat.wavg_l q l = locAbOf Stat.avg_l q l := by
  refine ⟨?_, ?_, ?_, ?_⟩ <;> simp [locAbOf, h]

/-- Instance of the amended claim C10 at a concrete list: three markers
with quantile 1/10 give trim width 0 and identical estimates. -/
theorem claim_C10_witness :
    quantOf (1/10) ([((100:ℚ),0),(100,2),(100,4)] : List (ℚ × Nat)).length = 0 ∧
    locAbOf Stat.tavg_g (1/10) [((100:ℚ),0),(100,2),(100,4)]
      = locAbOf Stat.avg_g (1/10) [((100:ℚ),0),(100,2),(100,4)] := by
  refine ⟨by with_unfolding_all decide, ?_⟩
  exact (claim_C10 (1/10) [((100:ℚ),0),(100,2),(100,4)]
    (by with_unfolding_all decide)).1

/-- Counterexample to claim C10 as stated: the clade `parC10` has trim
width 0 (its active marker list is empty), yet `compute_abundance` on it
returns different values in modes `tavg_g` and `avg_g` with all other
inputs equal, because the differing trim width of its child leaks in
through the children's sum. The claim only holds for the local estimate
(see the amended theorem). -/
theorem claim_C10_counterexample :
    quantOf envC10T.quantile
      (activeOf envC10T (m2nF parC10) (fullNameOf [] "g__P") (nTerm parC10)).length = 0 ∧
    (compute_abundance envC10T ctxRoot parC10).1 ≠ (compute_abundance envC10A ctxRoot parC10).1 := by
  with_unfolding_all decide

/-! ### Claim C5: strain-level zero-out -/

/-- Claim C5: a `t`-ranked clade whose father has more than one child, or
whose father's name contains `_sp`, or whose lineage is under
`k__Viruses` (`strainSpecial`), and whose active marker list is empty or
less than 70% nonzero (`lowActive`), gets abundance 0 from
`compute_abundance`, for every configuration – in particular every
statistic mode and raw count assignment satisfying the premise
(metaphlan2.py:377-382). -/
theorem claim_C5 (env : Env) (ctx : Ctx) (nm : String)
    (m2n : List (String × Nat)) (unclA : ℚ) (subclU : Bool) (cs : Forest)
    (hsp : strainSpecial nm ctx (fullNameOf ctx.ancNames nm) = true)
    (hlow : lowActive (activeOf env m2n (fullNameOf ctx.ancNames nm)
        (nTerm (TClade.node nm m2n none unclA subclU cs))) = true) :
    (compute_abundance env ctx (TClade.node nm m2n none unclA subclU cs)).1 = 0 ∧
    abF (compute_abundance env ctx (TClade.node nm m2n none unclA subclU cs)).2 = some 0 := by
  simp [compute_abundance, hsp, hlow, abF]

/-- Instance of claim C5: `cladeW5` has 1 of 2 active markers nonzero
(50% < 70%) and a father with two children, so its abundance is zeroed
even though its raw counts are nonzero. -/
theorem claim_C5_witness :
    (compute_abundance envW5 ctxW5 cladeW5).1 = 0 ∧
    abF (compute_abundance envW5 ctxW5 cladeW5).2 = some 0 :=
  claim_C5 envW5 ctxW5 "t__S" [("mA",0),("mB",5)] 0 false Forest.nil
    (by decide) (by with_unfolding_all decide)

/-! ### Claim C3: quasi-marker disambiguation -/

/-- If a marker does not occur in a dict, filtering it away changes
nothing: bridges "all markers" in the code with "other markers" in the
specification. -/
theorem filter_ne_of_lookupN_none (m : String) (d : List (String × Nat))
    (h : lookupN m d = none) : d.filter (fun p => !(p.1 == m)) = d := by
  induction d with
  | nil => rfl
  | cons p rest ih =>
    cases hpm : (p.1 == m) with
    | true =>
      exfalso
      rw [lookupN] at h
      simp [List.find?, hpm] at h
    | false =>
      rw [lookupN] at h
      simp only [List.find?, hpm] at h
      simp [List.filter_cons, hpm, ih h]

/-- Claim C3: with disambiguation enabled, a marker is flagged
misidentified — and `disqmFilter` sends its `(length, count)` pair to
the removed list instead of the active list — exactly when some clade
of its extended set, collapsed down any unary chain, has other markers
more than 0.33 of which carry a nonzero count. The hypotheses say the
database is valid: every extended taxon id resolves, and the marker
under test is not itself recorded on any of those collapsed clades (so
"other markers" are all their markers, as the code counts them). -/
theorem claim_C3 (env : Env) (m : String) (m2n : List (String × Nat))
    (hd : env.avoid_disqm = false)
    (hres : ∀ e ∈ env.markers2exts m, (env.taxa2clades e).isSome = true)
    (hoth : ∀ e ∈ env.markers2exts m, ∀ t, env.taxa2clades e = some t →
        lookupN m (m2nF (collapseT t)) = none) :
    (misidentified env m = true ↔
      ∃ e ∈ env.markers2exts m, ∃ t, env.taxa2clades e = some t ∧
        0 < ((m2nF (collapseT t)).filter (fun p => !(p.1 == m))).length ∧
        (0.33 : ℚ) <
          ((((m2nF (collapseT t)).filter (fun p => !(p.1 == m))).filter
              (fun p => decide (0 < p.2))).length : ℚ) /
            ((((m2nF (collapseT t)).filter (fun p => !(p.1 == m))).length : ℚ))) ∧
    disqmFilter env m2n =
      ((m2n.filter (fun p => !(misidentified env p.1))).map
          (fun p => (env.markers2lens p.1, p.2)),
       (m2n.filter (fun p => misidentified env p.1)).map
          (fun p => (env.markers2lens p.1, p.2))) := by
  constructor
  · rw [misidentified, List.any_eq_true]
    constructor
    · rintro ⟨e, he, hp⟩
      obtain ⟨t, ht⟩ := Option.isSome_iff_exists.mp (hres e he)
      rw [ht] at hp
      simp only [Bool.and_eq_true, decide_eq_true_eq] at hp
      refine ⟨e, he, t, ht, ?_⟩
      rw [filter_ne_of_lookupN_none m _ (hoth e he t ht)]
      exact hp
    · rintro ⟨e, he, t, ht, h1, h2⟩
      refine ⟨e, he, ?_⟩
      rw [ht]
      rw [filter_ne_of_lookupN_none m _ (hoth e he t ht)] at h1 h2
      simp only [Bool.and_eq_true, decide_eq_true_eq]
      exact ⟨h1, h2⟩
  · induction m2n with
    | nil => simp [disqmFilter]
    | cons p rest ih =>
      obtain ⟨m1, n1⟩ := p
      rw [disqmFilter, hd]
      cases hmis : misidentified env m1 <;>
        simp [hmis, List.filter_cons, ih, Prod.ext_iff]

/-- Instance of claim C3: `mX` is flagged misidentified (its extended
clade is 100% nonzero > 33%) and moved to the removed list, while `mY`
stays active. -/
theorem claim_C3_witness :
    misidentified envC3 "mX" = true ∧
    disqmFilter envC3 [("mX",4),("mY",7)] = ([(100,7)], [(100,4)]) := by
  have hoth : ∀ e ∈ envC3.markers2exts "mX", ∀ t, envC3.taxa2clades e = some t →
      lookupN "mX" (m2nF (collapseT t)) = none := by
    intro e he t ht
    have he2 : e = "E" := by simpa [envC3] using he
    subst he2
    have ht2 : extC3 = t := by simpa [envC3] using ht
    subst ht2
    decide
  have h := claim_C3 envC3 "mX" [("mX",4),("mY",7)] rfl (by decide) hoth
  constructor
  · refine h.1.mpr ⟨"E", by decide, extC3, rfl, ?_, ?_⟩
    · decide
    · with_unfolding_all decide
  · rw [h.2]
    with_unfolding_all decide

/-! ### Claim C4: the disambiguation safety valve -/

/-- Claim C4 (amended): when disambiguation is on and markers were
removed, `n_ripr` is 10 — except 0 when the clade has fewer than two
terminal leaves or its full name contains the viral kingdom — and, when
the active count is below `n_ripr`, removed markers are restored *in the
order they were removed during filtering* (the iteration order of
`markers2nreads`; the pre-filter sort at metaphlan2.py:328-330 is dead
code), until the active count reaches `n_ripr` or the removed markers
are exhausted (metaphlan2.py:354-367). -/
theorem claim_C4 (env : Env) (fullNm : String) (term : Nat)
    (m2n : List (String × Nat))
    (hd : env.avoid_disqm = false)
    (hrem : (disqmFilter env m2n).2 ≠ []) :
    nRiprOf fullNm term
      = (if containsStr fullNm "k__Viruses" = true ∨ term < 2 then 0 else 10) ∧
    activeOf env m2n fullNm term =
      sortByCount ((disqmFilter env m2n).1 ++
        (if (disqmFilter env m2n).1.length < nRiprOf fullNm term
         then (disqmFilter env m2n).2.take
            (nRiprOf fullNm term - (disqmFilter env m2n).1.length)
         else [])) := by
  constructor
  · rw [nRiprOf]
    by_cases h1 : containsStr fullNm "k__Viruses" = true <;>
      by_cases h2 : term < 2 <;> simp [h1, h2]
  · have hlen : 0 < (disqmFilter env m2n).2.length := List.length_pos.mpr hrem
    rw [activeOf, restoreStage]
    by_cases hlt : (disqmFilter env m2n).1.length < nRiprOf fullNm term <;>
      simp [hd, hlt, hlen, Nat.lt_add_of_pos_right]

/-- Counterexample to claim C4 as stated: with disambiguation on, two
markers removed (`r1` count 5 first, `r2` count 1 second) and nine
active markers, the code restores `removed[:1] = [(100, 5)]` — the
first marker *removed*, not the one with the lowest read count — so the
resulting active list differs from the claimed lowest-read-count-first
restoration, which would restore `(100, 1)`. -/
theorem claim_C4_counterexample :
    (disqmFilter envC4 m2nC4).2.length = 2 ∧
    envC4.avoid_disqm = false ∧
    activeOf envC4 m2nC4 (fullNameOf [] "s__X") (nTerm cladeC4)
      ≠ sortByCount ((disqmFilter envC4 m2nC4).1 ++
          (sortByCount ((disqmFilter envC4 m2nC4).2)).take
            (nRiprOf (fullNameOf [] "s__X") (nTerm cladeC4)
              - (disqmFilter envC4 m2nC4).1.length)) := by
  with_unfolding_all decide

/-- Instance of the amended claim C4 on the same data: `n_ripr` is 10
and exactly one removed marker — the first removed, `(100, 5)` — is
restored. -/
theorem claim_C4_witness :
    nRiprOf (fullNameOf [] "s__X") (nTerm cladeC4) = 10 ∧
    activeOf envC4 m2nC4 (fullNameOf [] "s__X") (nTerm cladeC4) =
      sortByCount ((disqmFilter envC4 m2nC4).1 ++ (disqmFilter envC4 m2nC4).2.take 1) := by
  have h := claim_C4 envC4 (fullNameOf [] "s__X") (nTerm cladeC4) m2nC4 rfl
    (by with_unfolding_all decide)
  constructor
  · rw [h.1]
    with_unfolding_all decide
  · rw [h.2]
    with_unfolding_all decide

/-! ### Claim C7: recording reads -/

theorem one_le_sizeT (c : TClade) : 1 ≤ sizeT c := by
  cases c with
  | node nm m2n ab u s cs => rw [sizeT]; omega

theorem lookupN_append_self (k : String) (v : Nat) (d : List (String × Nat))
    (h : d.any (fun p => p.1 == k) = false) : lookupN k (d ++ [(k, v)]) = some v := by
  induction d with
  | nil => simp [lookupN, List.find?]
  | cons p rest ih =>
    simp only [List.any_cons, Bool.or_eq_false_iff] at h
    simpa [lookupN, List.find?, h.1] using ih h.2

theorem lookupN_map_self (k : String) (v : Nat) (d : List (String × Nat))
    (h : d.any (fun p => p.1 == k) = true) :
    lookupN k (d.map (fun p => if p.1 == k then (p.1, v) else p)) = some v := by
  induction d with
  | nil => simp at h
  | cons p rest ih =>
    by_cases h1 : (p.1 == k) = true
    · simp [lookupN, List.find?, h1]
    · have h2 : rest.any (fun q => q.1 == k) = true := by
        rw [List.any_cons] at h
        simpa [h1] using h
      simpa [lookupN, List.find?, h1] using ih h2

/-- Overwrite semantics of the dict write: after `d[k] = v`, reading `k`
gives `v` whatever was there before. -/
theorem lookupN_dictInsertN (k : String) (v : Nat) (d : List (String × Nat)) :
    lookupN k (dictInsertN k v d) = some v := by
  rw [dictInsertN]
  cases hany : d.any (fun p => p.1 == k) with
  | true =>
    rw [if_pos rfl]
    exact lookupN_map_self k v d hany
  | false =>
    rw [if_neg (by simp)]
    exact lookupN_append_self k v d hany

/-- The collapse-and-record walk reaches exactly the clade `collapseT`
finds, returns its full name, and overwrites its dict entry for the
marker (strong induction along the unary chain). -/
theorem addCollapse_spec (marker : String) (n : Nat) :
    ∀ (k : Nat) (cl : TClade), sizeT cl ≤ k → ∀ anc : List String,
      (addCollapseC marker n anc cl).1
        = fullNameOf (anc ++ spineOf cl) (nameF (collapseT cl)) ∧
      m2nF (collapseT (addCollapseC marker n anc cl).2)
        = dictInsertN marker n (m2nF (collapseT cl)) := by
  intro k
  induction k with
  | zero =>
    intro cl hsz
    exact absurd hsz (by have := one_le_sizeT cl; omega)
  | succ k ih =>
    intro cl hsz anc
    cases cl with
    | node nm m2n ab u s cs =>
      cases cs with
      | nil =>
        simp [addCollapseC, addCollapseF, collapseT, collapseF, spineOf, spineF,
          nameF, m2nF]
      | cons c f =>
        cases f with
        | nil =>
          have hsz2 : sizeT c ≤ k := by
            rw [sizeT, sizeF, sizeF] at hsz
            omega
          have hc := ih c hsz2 (anc ++ [nm])
          constructor
          · rw [addCollapseC]
            simp only [addCollapseF]
            rw [hc.1]
            simp [spineOf, spineF, collapseT, collapseF, fullNameOf]
          · rw [addCollapseC]
            simp only [addCollapseF]
            rw [collapseT]
            simp only [collapseF]
            rw [hc.2]
            simp [collapseT, collapseF]
        | cons c2 f2 =>
          simp [addCollapseC, addCollapseF, collapseT, collapseF, spineOf, spineF,
            nameF, m2nF]

/-- Claim C7: for every marker, count and setting of the four kingdom
exclusion flags, `add_reads` on the marker's owning clade either (a)
drops the read — when the owning clade's full lineage matches an
excluded kingdom it returns the empty tax-sequence and leaves every
clade's `markers2nreads` unchanged — or (b) follows unary chains down
from the owning clade, overwrites (not accumulates) the collapsed
clade's count for the marker, and returns that clade's full
pipe-delimited name. -/
theorem claim_C7 (marker : String) (n : Nat) (fl : Flags) (anc : List String)
    (cl : TClade) :
    (excludedB fl (fullNameOf anc (nameF cl)) = true →
        add_reads marker n fl anc cl = ("", cl)) ∧
    (excludedB fl (fullNameOf anc (nameF cl)) = false →
        (add_reads marker n fl anc cl).1
            = fullNameOf (anc ++ spineOf cl) (nameF (collapseT cl)) ∧
        m2nF (collapseT (add_reads marker n fl anc cl).2)
            = dictInsertN marker n (m2nF (collapseT cl)) ∧
        lookupN marker (m2nF (collapseT (add_reads marker n fl anc cl).2)) = some n) := by
  constructor
  · intro h
    rw [excludedB, Bool.and_eq_true] at h
    simp only [add_reads]
    rw [if_pos h.1]
    by_cases h1 : (fl.iv && startsWithS (fullNameOf anc (nameF cl)) "k__Viruses") = true
    · rw [if_pos h1]
    · rw [if_neg h1]
      by_cases h2 : (fl.ie && startsWithS (fullNameOf anc (nameF cl)) "k__Eukaryotes") = true
      · rw [if_pos h2]
      · rw [if_neg h2]
        by_cases h3 : (fl.ia && startsWithS (fullNameOf anc (nameF cl)) "k__Archaea") = true
        · rw [if_pos h3]
        · rw [if_neg h3]
          by_cases h4 : (fl.ib && startsWithS (fullNameOf anc (nameF cl)) "k__Bacteria") = true
          · rw [if_pos h4]
          · exfalso
            rcases Bool.or_eq_true_iff.mp h.2 with hx | hx
            · rcases Bool.or_eq_true_iff.mp hx with hy | hy
              · rcases Bool.or_eq_true_iff.mp hy with hz | hz
                · exact h1 hz
                · exact h2 hz
              · exact h3 hy
            · exact h4 hx
  · intro h
    have hb : add_reads marker n fl anc cl = addCollapseC marker n anc cl := by
      rw [excludedB] at h
      simp only [add_reads]
      by_cases h0 : (fl.iv || fl.ie || fl.ib || fl.ia) = true
      · rw [h0] at h
        simp only [Bool.true_and, Bool.or_eq_false_iff] at h
        rw [if_pos h0, if_neg (by simp [h.1.1.1]), if_neg (by simp [h.1.1.2]),
          if_neg (by simp [h.1.2]), if_neg (by simp [h.2])]
      · rw [if_neg h0]
    rw [hb]
    have hs := addCollapse_spec marker n (sizeT cl) cl le_rfl anc
    exact ⟨hs.1, hs.2, hs.2 ▸ lookupN_dictInsertN marker n (m2nF (collapseT cl))⟩

/-- Instance of claim C7: with no exclusion flags, recording 7 reads of
`mZ` on `cladeW7` lands on the collapsed strain leaf, overwrites its
count 0 with 7 and returns the full collapsed name; with the viral flag
set and a viral lineage, the read is dropped and the tree unchanged. -/
theorem claim_C7_witness :
    (add_reads "mZ" 7 ⟨false,false,false,false⟩ ["k__B"] cladeW7).1
        = "k__B|g__G1|s__S1|t__T1" ∧
    lookupN "mZ"
        (m2nF (collapseT (add_reads "mZ" 7 ⟨false,false,false,false⟩ ["k__B"] cladeW7).2))
        = some 7 ∧
    add_reads "mZ" 7 ⟨true,false,false,false⟩ ["k__Viruses"] cladeW7
        = ("", cladeW7) := by
  have h := claim_C7 "mZ" 7 ⟨false,false,false,false⟩ ["k__B"] cladeW7
  have hx := claim_C7 "mZ" 7 ⟨true,false,false,false⟩ ["k__Viruses"] cladeW7
  refine ⟨?_, (h.2 (by decide)).2.2, hx.1 (by decide)⟩
  rw [(h.2 (by decide)).1]
  decide

/-! ### Claim C8: rank-filtered relative abundances sum to one -/

theorem keysOf_dictInsertQ (k : String) (v : ℚ) (d : List (String × ℚ)) (x : String)
    (hx : x ∈ keysOf (dictInsertQ k v d)) : x = k ∨ x ∈ keysOf d := by
  rw [dictInsertQ] at hx
  by_cases hany : (d.any fun p => p.1 == k) = true
  · rw [if_pos hany] at hx
    right
    rw [keysOf, List.map_map] at hx
    rw [keysOf]
    have he : List.map ((fun p => p.1) ∘ fun p => if p.1 == k then (p.1, v) else p) d
        = List.map (fun p : String × ℚ => p.1) d := by
      refine List.map_congr_left (fun q _ => ?_)
      simp only [Function.comp_apply]
      split <;> rfl
    rwa [he] at hx
  · rw [if_neg hany] at hx
    rw [keysOf, List.map_append] at hx
    rcases List.mem_append.mp hx with hx | hx
    · exact Or.inr hx
    · simp at hx
      exact Or.inl hx

theorem keysOf_foldl_filtered (lev : String) (entries : List (String × ℚ)) :
    ∀ (d0 : List (String × ℚ)) (x : String),
      x ∈ keysOf (entries.foldl
        (fun d p => if startsWithS p.1 lev then dictInsertQ p.1 p.2 d else d) d0) →
      x ∈ keysOf d0 ∨ ∃ p ∈ entries, p.1 = x := by
  induction entries with
  | nil =>
    intro d0 x hx
    exact Or.inl hx
  | cons p rest ih =>
    intro d0 x hx
    rw [List.foldl_cons] at hx
    rcases ih _ x hx with hx2 | hx2
    · by_cases hp : startsWithS p.1 lev = true
      · rw [if_pos hp] at hx2
        rcases keysOf_dictInsertQ p.1 p.2 d0 x hx2 with h | h
        · exact Or.inr ⟨p, List.mem_cons_self p rest, h.symm⟩
        · exact Or.inl h
      · rw [if_neg hp] at hx2
        exact Or.inl hx2
    · obtain ⟨q, hq, hqx⟩ := hx2
      exact Or.inr ⟨q, List.mem_cons_of_mem p hq, hqx⟩

/-- Claim C8: for every rank filter, the rank-filtered relative-abundance
mapping — the kept rank-matching entries normalised by the denominator,
plus the synthesized `<rank>unclassified` entry `1 - sum(kept)` — has
values summing to exactly 1. The hypothesis rules out a clade literally
named `<rank>unclassified` colliding with the synthesized key. -/
theorem claim_C8 (entries : List (String × ℚ)) (totAb : ℚ) (lev : String)
    (h : ∀ p ∈ entries, p.1 ≠ lev ++ "unclassified") :
    sumVals (relative_abundances_filtered entries totAb lev) = 1 := by
  rw [relative_abundances_filtered]
  have hk : (lev ++ "unclassified") ∉ keysOf ((entries.foldl
      (fun d p => if startsWithS p.1 lev then dictInsertQ p.1 p.2 d else d) []).map
        (fun p => (p.1, if totAb = 0 then 0 else p.2 / totAb))) := by
    intro hmem
    rw [keysOf, List.map_map] at hmem
    have he : List.map ((fun p => p.1) ∘
        fun p : String × ℚ => (p.1, if totAb = 0 then 0 else p.2 / totAb))
          (entries.foldl
            (fun d p => if startsWithS p.1 lev then dictInsertQ p.1 p.2 d else d) [])
        = List.map (fun p : String × ℚ => p.1)
          (entries.foldl
            (fun d p => if startsWithS p.1 lev then dictInsertQ p.1 p.2 d else d) []) := by
      exact List.map_congr_left (fun q _ => rfl)
    rw [he] at hmem
    rcases keysOf_foldl_filtered lev entries [] _ hmem with h0 | ⟨p, hp, hpx⟩
    · simp [keysOf] at h0
    · exact h p hp hpx
  have hany : ((entries.foldl
      (fun d p => if startsWithS p.1 lev then dictInsertQ p.1 p.2 d else d) []).map
        (fun p => (p.1, if totAb = 0 then 0 else p.2 / totAb))).any
          (fun p => p.1 == lev ++ "unclassified") = false := by
    rw [List.any_eq_false]
    intro p hp
    simp only [beq_iff_eq]
    intro hcontra
    exact hk (hcontra ▸ List.mem_map_of_mem (fun p => p.1) hp)
  rw [dictInsertQ, hany]
  simp only [Bool.false_eq_true, if_false]
  rw [sumVals, List.map_append, List.sum_append]
  simp [sumVals]

/-- Instance of claim C8: two kept species entries and one dropped genus
entry, denominator 2; the kept values 1/8 and 1/4 plus the synthesized
`s__unclassified` value 5/8 sum to 1. -/
theorem claim_C8_witness :
    sumVals (relative_abundances_filtered
      [("s__A", 1/4), ("s__B", 1/2), ("g__X", 3/4)] 2 "s__") = 1 :=
  claim_C8 [("s__A", 1/4), ("s__B", 1/2), ("g__X", 3/4)] 2 "s__" (by decide)

/-! ### Claim C9: output table ordering -/

/-- Counterexample to claim C9 as stated: with entries `k__A` at 30 and
`k__B|p__X` at 70 (two kingdoms at 30% and 70%, the second with a single
phylum), the produced table puts `k__A` (abundance 30, depth 0, key 830)
before `k__B|p__X` (abundance 70, depth 1, key 770): the table is *not*
ordered descending by abundance with a depth tie-break — depth dominates
across different ranks. -/
theorem claim_C9_counterexample :
    relAbSort [("k__B|p__X", 70), ("k__A", 30)]
        = [("k__A", 30), ("k__B|p__X", 70)] ∧
    ¬ claimOrderC9 (relAbSort [("k__B|p__X", 70), ("k__A", 30)]) := by
  have hsort : relAbSort [("k__B|p__X", 70), ("k__A", 30)]
      = [("k__A", 30), ("k__B|p__X", 70)] := by
    with_unfolding_all decide
  refine ⟨hsort, ?_⟩
  intro hc
  rw [claimOrderC9, hsort, List.chain'_cons] at hc
  rcases hc.1 with h | ⟨h, _⟩
  · norm_num at h
  · norm_num at h

/-- Claim C9 (amended): the `rel_ab` table is ordered by non-increasing
combined key `abundance + 100·(8 − separator count)`; consequently any
two entries of equal abundance appear shallower-first. (Since printed
abundances lie in (0, 100], the key in fact orders entries by depth
first and by descending abundance within a depth.) -/
theorem claim_C9 (l : List (String × ℚ)) :
    List.Sorted (fun x y => sortKeyRA y ≤ sortKeyRA x) (relAbSort l) ∧
    List.Pairwise (fun x y => x.2 = y.2 → countPipes x.1 ≤ countPipes y.1)
      (relAbSort l) := by
  haveI : IsTotal (String × ℚ) (fun x y => sortKeyRA y ≤ sortKeyRA x) :=
    ⟨fun a b => le_total (sortKeyRA b) (sortKeyRA a)⟩
  haveI : IsTrans (String × ℚ) (fun x y => sortKeyRA y ≤ sortKeyRA x) :=
    ⟨fun a b c hab hbc => le_trans hbc hab⟩
  have hs : List.Sorted (fun x y => sortKeyRA y ≤ sortKeyRA x) (relAbSort l) := by
    rw [relAbSort]
    exact List.sorted_insertionSort _ _
  refine ⟨hs, hs.imp ?_⟩
  intro x y hk heq
  rw [sortKeyRA, sortKeyRA, heq] at hk
  have h2 : ((countPipes x.1 : ℚ)) ≤ (countPipes y.1 : ℚ) := by linarith
  exact_mod_cast h2

/-! ### Claim C1: monotonicity -/

theorem abD_eq_abF (c : TClade) : abD c = (abF c).getD 0 := by
  cases c with
  | node nm m2n ab u s cs => rfl

theorem abD_compute (env : Env) (ctx : Ctx) (c : TClade) :
    abD (compute_abundance env ctx c).2 = (compute_abundance env ctx c).1 := by
  rw [abD_eq_abF, abF_compute]
  rfl

/-- Simultaneous induction for monotonicity: on a fresh tree whose
`t`-ranked clades are leaves, `compute_abundance` stores on every clade
an abundance at least the sum of its children's stored abundances, and
the forest pass returns exactly the sum of the stored child values. -/
theorem monoAux : ∀ n : Nat,
    (∀ (env : Env) (ctx : Ctx) (c : TClade), sizeT c ≤ n →
        freshT c = true → tleafT c = true →
        monoT (compute_abundance env ctx c).2 = true) ∧
    (∀ (env : Env) (ctx : Ctx) (f : Forest), sizeF f ≤ n →
        freshF f = true → tleafF f = true →
        monoF (compute_forest env ctx f).2 = true ∧
        sumAbF (compute_forest env ctx f).2 = (compute_forest env ctx f).1) := by
  intro n
  induction n with
  | zero =>
    constructor
    · intro env ctx c hsz
      exact absurd hsz (by have := one_le_sizeT c; omega)
    · intro env ctx f hsz
      cases f with
      | nil =>
        intro _ _
        simp [compute_forest, monoF, sumAbF]
      | cons c g =>
        exfalso
        rw [sizeF] at hsz
        omega
  | succ n ih =>
    constructor
    · intro env ctx c hsz hfr htl
      cases c with
      | node nm m2n ab u s cs =>
        rw [freshT, Bool.and_eq_true, Option.isNone_iff_eq_none] at hfr
        obtain ⟨hab, hfrcs⟩ := hfr
        subst hab
        rw [tleafT, Bool.and_eq_true] at htl
        obtain ⟨htlh, htlcs⟩ := htl
        have hszcs : sizeF cs ≤ n := by
          rw [sizeT] at hsz
          omega
        have hF := ih.2 env ⟨ctx.ancNames ++ [nm], nm, lengthF cs⟩ cs hszcs hfrcs htlcs
        rw [compute_abundance]
        split
        case isTrue hcond =>
          rw [Bool.and_eq_true, strainSpecial, Bool.and_eq_true] at hcond
          have hhead : (headCharOf nm == 't') = true := hcond.1.1
          have hnil : isCons cs = false := by
            rcases Bool.or_eq_true_iff.mp htlh with hx | hx
            · rw [hhead] at hx
              simp at hx
            · simpa using hx
          cases cs with
          | nil => simp [compute_forest, monoT, monoF, sumAbF]
          | cons c g => simp [isCons] at hnil
        case isFalse hcond =>
          rw [monoT]
          simp only [Bool.and_eq_true]
          constructor
          · rw [decide_eq_true_iff, hF.2]
            split_ifs <;> first | exact le_rfl | exact le_of_not_lt (by assumption)
          · exact hF.1
    · intro env ctx f hsz hfr htl
      cases f with
      | nil =>
        simp [compute_forest, monoF, sumAbF]
      | cons c g =>
        rw [freshF, Bool.and_eq_true] at hfr
        rw [tleafF, Bool.and_eq_true] at htl
        have hszc : sizeT c ≤ n := by
          rw [sizeF] at hsz
          omega
        have hszg : sizeF g ≤ n := by
          rw [sizeF] at hsz
          have := one_le_sizeT c
          omega
        have hc := ih.1 env ctx c hszc hfr.1 htl.1
        have hg := ih.2 env ctx g hszg hfr.2 htl.2
        rw [compute_forest]
        constructor
        · rw [monoF, Bool.and_eq_true]
          exact ⟨hc, hg.1⟩
        · rw [sumAbF, abD_compute, hg.2]

/-- Claim C1: on any freshly built tree from a valid marker database
(every abundance uncomputed, every `t`-ranked clade a leaf — lineages
end at rank `t`), after `compute_abundance` every clade's stored
abundance is at least the sum of its children's computed abundances
(`monoT`), for every configuration: all seven statistic modes and both
settings of the disambiguation toggle (the `env` is arbitrary). -/
theorem claim_C1 (env : Env) (ctx : Ctx) (c : TClade)
    (hfresh : freshT c = true) (htleaf : tleafT c = true) :
    monoT (compute_abundance env ctx c).2 = true :=
  (monoAux (sizeT c)).1 env ctx c le_rfl hfresh htleaf

/-- Instance of claim C1 on `treeW1`: the tree is fresh with `t`-leaves,
and after computation every clade dominates its children's sum. -/
theorem claim_C1_witness :
    freshT treeW1 = true ∧ tleafT treeW1 = true ∧
    monoT (compute_abundance envW1 ctxRoot treeW1).2 = true :=
  ⟨by decide, by decide, claim_C1 envW1 ctxRoot treeW1 (by decide) (by decide)⟩
